import Mathlib

/-!
Shallow embedding of `img2dataset/downloader.py` (the downloader module of the
playgroundai/img2dataset repository) together with proofs about the claims of
its specification.

Conventions of the embedding:
* Python strings are Lean `String`s; byte payloads (image bytes) are modelled
  as `String`s as well, since the code only passes them around, hashes them
  and hands them to external functions.
* Python string primitives (`str.split`, `str.strip`, `str.lower`,
  substring `in`) are re-implemented over `List Char` so that every
  definition evaluates by kernel reduction.
* External collaborators (resizer, hash algorithms, EXIF decoding, the sample
  writer, the stats sink, the filesystem) are modelled at their interface
  boundary; the resizer may raise (`Except`), which is the unexpected-failure
  source the broad `except` blocks of the code guard against.
* Machine floats / wall-clock times never influence the control flow of the
  modelled claims, so sleeps are recorded symbolically as `Nat` durations.
-/

namespace Img2dataset

/-! ### Character-list string primitives (models of Python `str` methods) -/

/-- Model of Python `str.strip` on the left: drop leading whitespace. -/
def dropWS (l : List Char) : List Char := l.dropWhile Char.isWhitespace

/-- Model of Python `str.strip`: drop leading and trailing whitespace. -/
def stripChars (l : List Char) : List Char :=
  ((dropWS l).reverse.dropWhile Char.isWhitespace).reverse

/-- Model of Python `str.strip` at `String` level. -/
def pyStrip (s : String) : String := ⟨stripChars s.data⟩

/-- Model of Python `str.lower` (ASCII lowering, as the code only compares
ASCII directive names and agent tokens). -/
def pyLower (s : String) : String := ⟨s.data.map Char.toLower⟩

/-- Split a character list on every occurrence of `sep`
(model of Python `str.split(sep)` for a one-character separator). -/
def splitAllAux (sep : Char) : List Char → List Char → List (List Char)
  | [], acc => [acc.reverse]
  | c :: rest, acc =>
    if c = sep then acc.reverse :: splitAllAux sep rest []
    else splitAllAux sep rest (c :: acc)

/-- Model of Python `s.split(sep)` for a one-character separator. -/
def pySplit (sep : Char) (s : String) : List String :=
  (splitAllAux sep s.data []).map (fun l => ⟨l⟩)

/-- Locate the first occurrence of `sep`, returning the characters before it
and after it, or `none` when `sep` does not occur. -/
def splitFirstAux (sep : Char) : List Char → Option (List Char × List Char)
  | [] => none
  | c :: rest =>
    if c = sep then some ([], rest)
    else (splitFirstAux sep rest).map (fun p => (c :: p.1, p.2))

/-- Model of Python `s.split(sep, 1)` for a one-character separator:
a list of one element (no separator present) or exactly two. -/
def pySplitFirst (sep : Char) (s : String) : List String :=
  match splitFirstAux sep s.data with
  | none => [s]
  | some (a, b) => [⟨a⟩, ⟨b⟩]

/-- Does `hay` start with `needle`? -/
def listStarts : List Char → List Char → Bool
  | [], _ => true
  | _ :: _, [] => false
  | a :: as, b :: bs => a == b && listStarts as bs

/-- Does `hay` contain `needle` as a contiguous substring? -/
def hasSub (needle : List Char) : List Char → Bool
  | [] => listStarts needle []
  | c :: rest => listStarts needle (c :: rest) || hasSub needle rest

/-- Model of the Python expression `needle in hay` on strings. -/
def pyContains (hay needle : String) : Bool := hasSub needle.data hay.data

/-! ### `is_disallowed` (downloader.py lines 20-34) -/

/-- Embedding of `is_disallowed(headers, user_agent_token,
disallowed_header_directives)`.  `headerValues` is the list
`headers.get_all("X-Robots-Tag", [])`; `user_agent_token` is `none` when the
Python argument is `None`; the disallowed set is the list of its elements.
The `try/except` of the source only guards against exotic header objects;
over strings the parsing below is total, so no exception branch is needed. -/
def is_disallowed (headerValues : List String) (user_agent_token : Option String)
    (disallowed_header_directives : List String) : Bool :=
  headerValues.any (fun values =>
    let uatoken_directives := pySplitFirst ':' values
    let directives := (pySplit ',' (uatoken_directives.getLastD "")).map
      (fun x => pyLower (pyStrip x))
    let ua_token : Option String :=
      if uatoken_directives.length = 2 then some (pyLower (uatoken_directives.getD 0 "")) else none
    (ua_token.isNone || ua_token == user_agent_token) &&
      directives.any (fun x => disallowed_header_directives.contains x))

/-- Modelled from the spec (§6 "Usage-policy header semantics", §4.2): a header
value is split on the first colon into an optional scoping token and a
comma-separated directive list; each directive is trimmed and lowercased
before membership testing; the header blocks iff some directive is in the
disallowed set and the scoping token is absent or matches the caller's own
token case-insensitively.  This second definition follows the spec's words and
is compared with `is_disallowed`, the definition taken from the source. -/
def spec_is_disallowed (headerValues : List String) (callerToken : Option String)
    (disallowed : List String) : Bool :=
  headerValues.any (fun v =>
    let parts := pySplitFirst ':' v
    let dirs := (pySplit ',' (parts.getLastD "")).map (fun d => pyLower (pyStrip d))
    let scopeOk : Bool :=
      if parts.length = 2 then
        match callerToken with
        | none => false
        | some u => pyLower (parts.getD 0 "") == pyLower u
      else true
    scopeOk && dirs.any (fun d => disallowed.contains d))

/-! ### `is_rate_limit_error` (line 37-38) -/

/-- Embedding of `is_rate_limit_error(err)`: the substring test
`'HTTP Error 429' in err` on the textual error description. -/
def is_rate_limit_error (err : String) : Bool :=
  pyContains err "HTTP Error 429"

/-! ### `download_image` (lines 41-66) -/

/-- Behaviour of the network for a single fetch attempt: either `urlopen`
raises (timeout, DNS, TLS, HTTP error status, ... — `err` is the textual
form `str(err)` of the exception) or it returns a response whose
`X-Robots-Tag` header values are `headers` and whose body is `body`. -/
inductive NetResponse where
  | ok (headers : List String) (body : String)
  | bad (err : String)
deriving DecidableEq

/-- The policy-violation message of downloader.py line 57. -/
def disallowedMessage : String := "Use of image disallowed by X-Robots-Tag directive"

/-- The message of the exception raised by line 56, `import remote_pdb;
remote_pdb.set_trace()`: `remote_pdb` is not imported at module level and is
not a dependency of the repository, so in the repository's own environment the
statement raises `ModuleNotFoundError("No module named 'remote_pdb'")`, which
the broad `except` of `download_image` converts to a textual error. -/
def remotePdbError : String := "No module named 'remote_pdb'"

/-- Embedding of `download_image(row, timeout, user_agent_token,
disallowed_header_directives)`.  `net` is the network's behaviour for this
attempt; the returned triple is `(key, img_stream, error_message)` with the
byte stream and the error as `Option`s (`none` = Python `None`).  `timeout`
only parameterizes the network call and does not influence the result, and is
kept for interface fidelity.  The disallowed branch executes line 56
(`import remote_pdb; remote_pdb.set_trace()`), which raises (see
`remotePdbError`), so the broad `except` returns that exception's text and
line 57 is unreachable. -/
def download_image (net : NetResponse) (key : Nat) (timeout : Nat)
    (user_agent_token : Option String) (disallowed_header_directives : List String) :
    Nat × Option String × Option String :=
  match net with
  | .bad err => (key, none, some err)
  | .ok headers body =>
    if !disallowed_header_directives.isEmpty &&
        is_disallowed headers user_agent_token disallowed_header_directives then
      (key, none, some remotePdbError)
    else
      (key, some body, none)

/-! ### `download_image_with_retry` (lines 69-80) -/

/-- Model of the Python test `err is not None and is_rate_limit_error(err)`. -/
def errIsRateLimited : Option String → Bool
  | some e => is_rate_limit_error e
  | none => false

/-- The observable trace of one call of `download_image_with_retry`:
the final `(key, img_stream, err)` triple, the `(img_stream, err)` outcome of
each performed fetch attempt in order, and the duration of each
`time.sleep` in order (symbolic, in the same unit as `timeout`). -/
structure RetryRun where
  key : Nat
  img_stream : Option String
  err : Option String
  attempts : List (Option String × Option String)
  sleeps : List Nat
deriving DecidableEq

/-- Body of the `for _ in range(retries + 1)` loop of
`download_image_with_retry`: `attempt i` is the `(img_stream, err)` pair
returned by the `i`-th call of `download_image`, `fuel` the number of loop
iterations still allowed, `backoff` the current `exponential_backoff` value.
A rate-limited failure sleeps `backoff * timeout`, doubles the backoff and
continues; a success returns immediately; any other failure falls through to
the next iteration (no `break` in the source); when the iterations are
exhausted the last error is returned with a `none` stream. -/
def retryLoop (attempt : Nat → Option String × Option String) (timeout : Nat)
    (key : Nat) : Nat → Nat → Nat → RetryRun
  | 0, _, _ => ⟨key, none, none, [], []⟩
  | fuel + 1, idx, backoff =>
    let r := attempt idx
    if errIsRateLimited r.2 then
      if fuel = 0 then
        ⟨key, none, r.2, [r], [backoff * timeout]⟩
      else
        let rest := retryLoop attempt timeout key fuel (idx + 1) (backoff * 2)
        ⟨key, rest.img_stream, rest.err, r :: rest.attempts, backoff * timeout :: rest.sleeps⟩
    else if r.1.isSome then
      ⟨key, r.1, r.2, [r], []⟩
    else
      if fuel = 0 then
        ⟨key, none, r.2, [r], []⟩
      else
        let rest := retryLoop attempt timeout key fuel (idx + 1) backoff
        ⟨key, rest.img_stream, rest.err, r :: rest.attempts, rest.sleeps⟩

/-- Embedding of `download_image_with_retry(row, timeout, retries,
user_agent_token, disallowed_header_directives)`: at most `retries + 1`
calls of `download_image`, where `net i` is the network's behaviour at the
`i`-th attempt, starting from `exponential_backoff = 2`. -/
def download_image_with_retry (net : Nat → NetResponse) (key : Nat)
    (timeout retries : Nat) (user_agent_token : Option String)
    (disallowed_header_directives : List String) : RetryRun :=
  retryLoop
    (fun i => (download_image (net i) key timeout user_agent_token
      disallowed_header_directives).2)
    timeout key (retries + 1) 0 2

/-! ### `compute_key` (lines 245-251)

Python's `"{true_key:0{key_format}d}".format(...)` is the decimal digits of
`true_key`, left-padded with `'0'` to at least `key_format` characters.  The
decimal digits are produced by a fuel-driven base-10 expansion so that every
definition evaluates by kernel reduction. -/

/-- Little-endian base-10 digits of `n`, with explicit fuel (`natDigits`
instantiates the fuel with `n` itself, which always suffices). -/
def natDigitsAux : Nat → Nat → List Nat
  | 0, _ => []
  | _ + 1, 0 => []
  | fuel + 1, n + 1 => ((n + 1) % 10) :: natDigitsAux fuel ((n + 1) / 10)

/-- Little-endian base-10 digits of `n` (empty for `0`). -/
def natDigits (n : Nat) : List Nat := natDigitsAux n n

/-- Value of a little-endian base-10 digit list. -/
def ofDigitsLE : List Nat → Nat
  | [] => 0
  | d :: rest => d + 10 * ofDigitsLE rest

/-- Little-endian digits of `n` padded with zeros to at least `w` entries. -/
def padDigits (n w : Nat) : List Nat :=
  natDigits n ++ List.replicate (w - (natDigits n).length) 0

/-- Numeric value of a decimal digit character. -/
def charToDigit (c : Char) : Nat := c.toNat - 48

/-- Value of a string of decimal digits (most significant first). -/
def decodeDecimal (s : String) : Nat :=
  ofDigitsLE ((s.data.map charToDigit).reverse)

/-- Embedding of `compute_key(key, shard_id, oom_sample_per_shard,
oom_shard_count)`: the decimal representation of
`10 ** oom_sample_per_shard * shard_id + key`, zero-padded to
`oom_sample_per_shard + oom_shard_count` characters. -/
def compute_key (key : Nat) (shard_id : Nat) (oom_sample_per_shard : Nat)
    (oom_shard_count : Nat) : String :=
  let true_key := 10 ^ oom_sample_per_shard * shard_id + key
  let key_format := oom_sample_per_shard + oom_shard_count
  ⟨(padDigits true_key key_format).reverse.map Nat.digitChar⟩

/-! ### `download_and_process_image_with_retry` (lines 83-242)

The processor is modelled as a pure function of the fetch outcome, the row's
column values and the configuration.  External collaborators appear as
function-valued configuration fields.  The resizer is the modelled source of
unexpected exceptions (spec §4.4 step 3 is an external call inside the broad
`try` of lines 111-237): it returns `Except`, where `Except.error e` models
the call raising an exception whose text is `e`.  The index lookups
`sample_data[...]` are total here (`getElem?`): the shard driver always
builds `sample_data` with exactly one value per configured column, so the
`IndexError` branches cannot trigger; the one lookup whose failure the
claims exercise, `sample_data[hash_indice]`, is modelled explicitly with the
exception outcome. -/

/-- The metadata record assembled for every row (the Python `meta` dict).
`exif`/`contentHash` are `none` when the corresponding key is absent from the
dict, `some v` when the key is present with (nullable) value `v`. -/
structure Meta where
  origFields : List (String × String)
  key : String
  status : Option String
  error_message : Option String
  width : Option Nat
  height : Option Nat
  original_width : Option Nat
  original_height : Option Nat
  exif : Option (Option String)
  contentHash : Option (Option String)
deriving DecidableEq

/-- The original row fields copied into `meta` (lines 116-120): every
`(column, value)` pair except the verification-hash column. -/
def origFields (column_list sample_data : List String) (hash_indice : Option Nat) :
    List (String × String) :=
  ((column_list.zip sample_data).enum.filter
    (fun p => match hash_indice with | none => true | some h => p.1 != h)).map Prod.snd

/-- One `sample` tuple handed to the writer:
`(img_or_none, str_key, caption_or_none, meta)`. -/
abbrev Sample := Option String × String × Option String × Meta

/-- The 5-tuple returned by `download_and_process_image_with_retry`:
`(sample, error_message, successes, failed_to_download, failed_to_resize)`.
`sample = none` is Python's `sample is None` (the broad-except path). -/
structure ProcOut where
  sample : Option Sample
  error_message : Option String
  successes : Nat
  failed_to_download : Nat
  failed_to_resize : Nat
deriving DecidableEq

/-- The tuple returned by the external resizer (spec §6):
`(payload, width, height, original_width, original_height, error)`. -/
structure ResizeRet where
  img : String
  width : Nat
  height : Nat
  original_width : Nat
  original_height : Nat
  error_message : Option String
deriving DecidableEq

/-- Per-shard configuration of the processor: the scalar fields of
`Downloader` plus the column indices resolved by `download_shard` and the
external collaborators (resizer, hash algorithms, EXIF decoder) at their
interface boundary.  `verifyHashFn`/`computeHashFn` model
`getattr(hashlib, name)(...).hexdigest()` for the two configured algorithm
names, assumed valid. -/
structure DLConfig where
  shard_id : Nat
  oom_sample_per_shard : Nat
  oom_shard_count : Nat
  column_list : List String
  bbox_indice : Option Nat
  caption_indice : Option Nat
  crop_indice : Option Nat
  hash_indice : Option Nat
  extract_exif : Bool
  compute_hash : Option String
  verifyHashFn : String → String
  computeHashFn : String → String
  exifFn : String → Option String
  resizer : String → Option String → Option String → Except String ResizeRet

/-- The value returned after the broad `except` of lines 237-240 fires:
`sample` is still `None`, the local `error_message` is `none` (every
modelled raise point lies on the fetch-success path, where it is `None`),
and no counter was incremented. -/
def exceptionOut : ProcOut :=
  { sample := none, error_message := none,
    successes := 0, failed_to_download := 0, failed_to_resize := 0 }

/-- Lines 173-236: the resize call and the success path (EXIF, content hash,
dimension fields).  `Except.error` from the resizer takes the broad-except
path of lines 237-240. -/
def resize_and_finish (cfg : DLConfig) (str_key : String) (caption : Option String)
    (meta : Meta) (img : String) (sample_data : List String) : ProcOut :=
  let maybe_crop := cfg.crop_indice.bind (fun i => sample_data[i]?)
  let bbox_list := cfg.bbox_indice.bind (fun i => sample_data[i]?)
  match cfg.resizer img bbox_list maybe_crop with
  | .error _ => exceptionOut
  | .ok r =>
    match r.error_message with
    | some e =>
      { sample := some (none, str_key, caption,
          { meta with status := some "failed_to_resize", error_message := some e })
        error_message := some e
        successes := 0, failed_to_download := 0, failed_to_resize := 1 }
    | none =>
      let meta2 := { meta with
        status := some "success"
        width := some r.width
        height := some r.height
        original_width := some r.original_width
        original_height := some r.original_height
        exif := if cfg.extract_exif then some (cfg.exifFn img) else none
        contentHash := if cfg.compute_hash.isSome then some (some (cfg.computeHashFn img)) else none }
      { sample := some (some r.img, str_key, caption, meta2)
        error_message := none
        successes := 1, failed_to_download := 0, failed_to_resize := 0 }

/-- Lines 111-242 of `download_and_process_image_with_retry`: everything
after the `download_image_with_retry` call, as a function of that call's
`(img_stream, error_message)` outcome. -/
def process_downloaded (cfg : DLConfig) (key : Nat) (img_stream : Option String)
    (error_message : Option String) (sample_data : List String) : ProcOut :=
  let str_key := compute_key key cfg.shard_id cfg.oom_sample_per_shard cfg.oom_shard_count
  let caption := cfg.caption_indice.bind (fun i => sample_data[i]?)
  let meta : Meta := {
    origFields := origFields cfg.column_list sample_data cfg.hash_indice
    key := str_key
    status := none
    error_message := error_message
    width := none
    height := none
    original_width := none
    original_height := none
    exif := if cfg.extract_exif then some none else none
    contentHash := if cfg.compute_hash.isSome then some none else none }
  match error_message with
  | some e =>
    { sample := some (none, str_key, caption,
        { meta with status := some "failed_to_download", error_message := some e })
      error_message := some e
      successes := 0, failed_to_download := 1, failed_to_resize := 0 }
  | none =>
    match img_stream with
    | none => exceptionOut
    | some img =>
      match cfg.hash_indice with
      | none => resize_and_finish cfg str_key caption meta img sample_data
      | some hi =>
        match sample_data[hi]? with
        | none => exceptionOut
        | some stored =>
          if cfg.verifyHashFn img != stored then
            { sample := some (none, str_key, caption,
                { meta with status := some "failed_to_download",
                            error_message := some "hash mismatch" })
              error_message := some "hash mismatch"
              successes := 0, failed_to_download := 1, failed_to_resize := 0 }
          else resize_and_finish cfg str_key caption meta img sample_data

/-- Embedding of the whole of `download_and_process_image_with_retry`:
the retrying fetch followed by the processing of its outcome. -/
def download_and_process_image_with_retry (cfg : DLConfig) (net : Nat → NetResponse)
    (timeout retries : Nat) (user_agent_token : Option String)
    (disallowed_header_directives : List String) (key : Nat)
    (sample_data : List String) : ProcOut :=
  let run := download_image_with_retry net key timeout retries user_agent_token
    disallowed_header_directives
  process_downloaded cfg key run.img_stream run.err sample_data

/-! ### `Downloader.download_shard` (lines 311-440)

The driver is modelled over the list of per-row processor inputs in the
order the results are consumed from `imap_unordered` (completion order: the
caller of the model picks the order, which subsumes every schedule).  The
side effects whose ordering the claims are about are recorded as an event
trace: one `wrote` event per `sample_writer.write(*sample)` call, then
`closedWriter` for `sample_writer.close()`, `statsWritten` for
`write_stats(...)` and `removedShard` for `fs.rm(shard_path)`.
`sample_writer.write(*sample)` with `sample = None` raises `TypeError`
(argument unpacking of `None`); the `except` of lines 418-420 then abandons
the consumption loop, after which `close()` and the rest still run. -/

/-- One externally visible step of the shard driver. -/
inductive Event where
  | wrote (s : Sample)
  | closedWriter
  | statsWritten
  | removedShard
deriving DecidableEq

/-- Is this event a write of a sample? -/
def Event.isWrote : Event → Bool
  | .wrote _ => true
  | _ => false

/-- The processor input for one row, as delivered to the consumption loop:
the row's index `key`, the `(img_stream, err)` outcome of its
`download_image_with_retry` call, and its column values. -/
structure RowEnv where
  key : Nat
  img_stream : Option String
  err : Option String
  sample_data : List String
deriving DecidableEq

/-- State of the result-consumption loop of lines 382-420. -/
structure LoopState where
  successes : Nat
  failed_to_download : Nat
  failed_to_resize : Nat
  events : List Event
  aborted : Bool
deriving DecidableEq

/-- The result-consumption loop: aggregate the counters of each completed
row, then hand the sample to the writer; a `none` sample makes
`write(*sample)` raise, which the surrounding `except` turns into
abandoning the loop (remaining rows are never consumed). -/
def shardLoop (cfg : DLConfig) : List RowEnv → LoopState → LoopState
  | [], st => st
  | env :: rest, st =>
    let out := process_downloaded cfg env.key env.img_stream env.err env.sample_data
    let st2 : LoopState := { st with
      successes := st.successes + out.successes
      failed_to_download := st.failed_to_download + out.failed_to_download
      failed_to_resize := st.failed_to_resize + out.failed_to_resize }
    match out.sample with
    | some smp => shardLoop cfg rest { st2 with events := st2.events ++ [.wrote smp] }
    | none => { st2 with aborted := true }

/-- Aggregate outcome of `download_shard` for one shard: the final counters
handed to `write_stats`, the shard's row count and the event trace. -/
structure ShardOut where
  count : Nat
  successes : Nat
  failed_to_download : Nat
  failed_to_resize : Nat
  events : List Event
deriving DecidableEq

/-- Embedding of `Downloader.download_shard`: consume every row's result
(in the completion order given by `rows`), then close the writer, emit the
statistics and remove the shard's backing object. -/
def download_shard (cfg : DLConfig) (rows : List RowEnv) : ShardOut :=
  let st := shardLoop cfg rows ⟨0, 0, 0, [], false⟩
  { count := rows.length
    successes := st.successes
    failed_to_download := st.failed_to_download
    failed_to_resize := st.failed_to_resize
    events := st.events ++ [.closedWriter, .statsWritten, .removedShard] }

/-! ### Helper lemmas on the decimal-digit machinery -/

theorem ofDigitsLE_natDigitsAux (fuel : Nat) :
    ∀ n, n ≤ fuel → ofDigitsLE (natDigitsAux fuel n) = n := by
  induction fuel with
  | zero =>
    intro n hn
    interval_cases n
    rfl
  | succ f ih =>
    intro n hn
    match n with
    | 0 => rfl
    | m + 1 =>
      have hlt : (m + 1) / 10 < m + 1 := Nat.div_lt_self (Nat.succ_pos m) (by norm_num)
      have hdiv : (m + 1) / 10 ≤ f := by omega
      simp only [natDigitsAux, ofDigitsLE, ih _ hdiv]
      omega

theorem natDigitsAux_length (fuel : Nat) :
    ∀ n w, n ≤ fuel → n < 10 ^ w → (natDigitsAux fuel n).length ≤ w := by
  induction fuel with
  | zero =>
    intro n w hn _
    interval_cases n
    simp [natDigitsAux]
  | succ f ih =>
    intro n w hn hw
    match n with
    | 0 => simp [natDigitsAux]
    | m + 1 =>
      match w with
      | 0 => simp at hw
      | v + 1 =>
        have hlt : (m + 1) / 10 < m + 1 := Nat.div_lt_self (Nat.succ_pos m) (by norm_num)
        have hdiv : (m + 1) / 10 ≤ f := by omega
        have hv : (m + 1) / 10 < 10 ^ v := by
          have h10 : m + 1 < 10 ^ v * 10 := by
            have : (10 : Nat) ^ (v + 1) = 10 ^ v * 10 := pow_succ 10 v
            omega
          omega
        simp only [natDigitsAux, List.length_cons]
        have := ih _ _ hdiv hv
        omega

theorem natDigitsAux_lt (fuel : Nat) :
    ∀ n d, d ∈ natDigitsAux fuel n → d < 10 := by
  induction fuel with
  | zero =>
    intro n d h
    simp [natDigitsAux] at h
  | succ f ih =>
    intro n d h
    match n with
    | 0 => simp [natDigitsAux] at h
    | m + 1 =>
      simp only [natDigitsAux, List.mem_cons] at h
      rcases h with h | h
      · omega
      · exact ih _ _ h

theorem ofDigitsLE_replicate_zero (k : Nat) :
    ofDigitsLE (List.replicate k 0) = 0 := by
  induction k with
  | zero => rfl
  | succ j ih => simp [List.replicate, ofDigitsLE, ih]

theorem ofDigitsLE_append_zeros (l : List Nat) (k : Nat) :
    ofDigitsLE (l ++ List.replicate k 0) = ofDigitsLE l := by
  induction l with
  | nil => simp [ofDigitsLE, ofDigitsLE_replicate_zero]
  | cons d rest ih => simp [ofDigitsLE, ih]

theorem ofDigitsLE_padDigits (n w : Nat) : ofDigitsLE (padDigits n w) = n := by
  unfold padDigits
  rw [ofDigitsLE_append_zeros]
  exact ofDigitsLE_natDigitsAux n n (Nat.le_refl n)

theorem padDigits_lt (n w : Nat) : ∀ d ∈ padDigits n w, d < 10 := by
  intro d hd
  unfold padDigits at hd
  rcases List.mem_append.mp hd with h | h
  · exact natDigitsAux_lt n n d h
  · have := List.eq_of_mem_replicate h
    omega

theorem padDigits_length (n w : Nat) (h : n < 10 ^ w) : (padDigits n w).length = w := by
  unfold padDigits natDigits
  have := natDigitsAux_length n n w (Nat.le_refl n) h
  simp [List.length_append, List.length_replicate]
  omega

theorem charToDigit_digitChar (d : Nat) (h : d < 10) :
    charToDigit (Nat.digitChar d) = d := by
  interval_cases d <;> rfl

/-- Decoding a `compute_key` string recovers `10 ^ P * shard_id + key`. -/
theorem decodeDecimal_compute_key (key shard_id P S : Nat) :
    decodeDecimal (compute_key key shard_id P S) = 10 ^ P * shard_id + key := by
  unfold compute_key decodeDecimal
  show ofDigitsLE ((((padDigits (10 ^ P * shard_id + key) (P + S)).reverse.map
    Nat.digitChar).map charToDigit).reverse) = _
  rw [List.map_map, List.map_reverse, List.reverse_reverse]
  have hmap : (padDigits (10 ^ P * shard_id + key) (P + S)).map (charToDigit ∘ Nat.digitChar)
      = padDigits (10 ^ P * shard_id + key) (P + S) := by
    have hpt : ∀ d ∈ padDigits (10 ^ P * shard_id + key) (P + S),
        (charToDigit ∘ Nat.digitChar) d = id d := by
      intro d hd
      simp [charToDigit_digitChar d (padDigits_lt _ _ d hd)]
    rw [List.map_congr_left hpt, List.map_id]
  rw [hmap, ofDigitsLE_padDigits]

theorem true_key_fields (P k1 s1 k2 s2 : Nat) (h1 : k1 < 10 ^ P) (h2 : k2 < 10 ^ P)
    (he : 10 ^ P * s1 + k1 = 10 ^ P * s2 + k2) : k1 = k2 ∧ s1 = s2 := by
  have hp : 0 < 10 ^ P := Nat.pos_pow_of_pos P (by norm_num)
  constructor
  · have hm := congrArg (fun x => x % 10 ^ P) he
    simpa [Nat.mul_add_mod, Nat.mod_eq_of_lt h1, Nat.mod_eq_of_lt h2] using hm
  · have hd := congrArg (fun x => x / 10 ^ P) he
    simpa [Nat.mul_add_div hp, Nat.div_eq_of_lt h1, Nat.div_eq_of_lt h2] using hd

/-- C9: for `row_index < 10^P` and `shard_id < 10^S`, `compute_key` returns
the zero-padded decimal representation of `shard_id * 10^P + row_index` with
exactly `P + S` digits (witnessed by the length and by decoding the digits
back to the value), and the mapping is injective: two distinct
`(row_index, shard_id)` pairs in range never produce the same key. -/
theorem compute_key_correct (key shard_id P S : Nat)
    (hk : key < 10 ^ P) (hs : shard_id < 10 ^ S) :
    (compute_key key shard_id P S).length = P + S ∧
    decodeDecimal (compute_key key shard_id P S) = 10 ^ P * shard_id + key ∧
    (∀ key2 shard2, key2 < 10 ^ P → shard2 < 10 ^ S →
      (key2, shard2) ≠ (key, shard_id) →
      compute_key key2 shard2 P S ≠ compute_key key shard_id P S) := by
  have ht : 10 ^ P * shard_id + key < 10 ^ (P + S) := by
    have h1 : 10 ^ P * shard_id + key < 10 ^ P * (shard_id + 1) := by
      rw [Nat.mul_succ]
      exact Nat.add_lt_add_left hk _
    have h2 : 10 ^ P * (shard_id + 1) ≤ 10 ^ P * 10 ^ S :=
      Nat.mul_le_mul (Nat.le_refl _) hs
    rw [pow_add]
    omega
  refine ⟨?_, decodeDecimal_compute_key key shard_id P S, ?_⟩
  · show ((padDigits (10 ^ P * shard_id + key) (P + S)).reverse.map Nat.digitChar).length = P + S
    rw [List.length_map, List.length_reverse, padDigits_length _ _ ht]
  · intro key2 shard2 hk2 hs2 hne he
    apply hne
    have hd := congrArg decodeDecimal he
    rw [decodeDecimal_compute_key, decodeDecimal_compute_key] at hd
    obtain ⟨hkk, hss⟩ := true_key_fields P key2 shard2 key shard_id hk2 hk hd
    simp [Prod.ext_iff, hkk, hss]

/-- Witness for C9 at the spec's own example: shard 0, row 5, `P = 3`,
`S = 2` gives the five-character key `"00005"`, which decodes back to 5, and
shard 1 row 5 gets a different key. -/
theorem compute_key_correct_witness :
    compute_key 5 0 3 2 = "00005" ∧
    (compute_key 5 0 3 2).length = 3 + 2 ∧
    decodeDecimal (compute_key 5 0 3 2) = 10 ^ 3 * 0 + 5 ∧
    compute_key 5 1 3 2 ≠ compute_key 5 0 3 2 := by
  have h := compute_key_correct 5 0 3 2 (by norm_num) (by norm_num)
  exact ⟨by decide, h.1, h.2.1, h.2.2 5 1 (by norm_num) (by norm_num) (by decide)⟩

/-! ### Helper lemmas on the retry loop -/

theorem retryLoop_sleeps (attempt : Nat → Option String × Option String) (T key : Nat) :
    ∀ fuel idx b, (retryLoop attempt T key fuel idx b).sleeps =
      (List.range (((retryLoop attempt T key fuel idx b).attempts.filter
        (fun r => errIsRateLimited r.2)).length)).map (fun i => b * 2 ^ i * T) := by
  intro fuel
  induction fuel with
  | zero =>
    intro idx b
    simp [retryLoop]
  | succ f ih =>
    intro idx b
    by_cases hrl : errIsRateLimited (attempt idx).2 = true
    · by_cases hf : f = 0
      · subst hf
        simp [retryLoop, hrl, List.range_succ, pow_zero, mul_one]
      · have hrest := ih (idx + 1) (b * 2)
        simp only [retryLoop, hrl, hf, if_true, if_false, ite_true, ite_false]
        simp only [List.filter_cons, hrl, if_true, ite_true]
        rw [hrest, List.length_cons, List.range_succ_eq_map, List.map_cons, List.map_map]
        congr 1
        · ring
        · apply List.map_congr_left
          intro i _
          simp only [Function.comp_apply, Nat.succ_eq_add_one, pow_succ]
          ring
    · simp only [Bool.not_eq_true] at hrl
      by_cases hs : (attempt idx).1.isSome = true
      · simp [retryLoop, hrl, hs]
      · simp only [Bool.not_eq_true] at hs
        by_cases hf : f = 0
        · subst hf
          simp [retryLoop, hrl, hs]
        · have hrest := ih (idx + 1) b
          simp only [retryLoop, hrl, hs, hf, if_true, if_false, ite_true, ite_false,
            Bool.false_eq_true]
          simp only [List.filter_cons, hrl, if_false, ite_false, Bool.false_eq_true]
          exact hrest

theorem retryLoop_allFail (attempt : Nat → Option String × Option String) (T key : Nat) :
    ∀ fuel idx b, 0 < fuel → (∀ j, j < fuel → (attempt (idx + j)).1 = none) →
      (retryLoop attempt T key fuel idx b).err = (attempt (idx + (fuel - 1))).2 ∧
      (retryLoop attempt T key fuel idx b).img_stream = none ∧
      (retryLoop attempt T key fuel idx b).attempts.length = fuel := by
  intro fuel
  induction fuel with
  | zero =>
    intro idx b hpos _
    omega
  | succ f ih =>
    intro idx b _ h
    have h0 : (attempt idx).1 = none := by simpa using h 0 (by omega)
    by_cases hf : f = 0
    · subst hf
      by_cases hrl : errIsRateLimited (attempt idx).2 = true
      · simp [retryLoop, hrl]
      · simp only [Bool.not_eq_true] at hrl
        simp [retryLoop, hrl, h0]
    · have hpos2 : 0 < f := Nat.pos_of_ne_zero hf
      have hshift : ∀ j, j < f → (attempt (idx + 1 + j)).1 = none := by
        intro j hj
        have := h (j + 1) (by omega)
        rw [show idx + (j + 1) = idx + 1 + j by omega] at this
        exact this
      have hidx : idx + 1 + (f - 1) = idx + (f + 1 - 1) := by omega
      by_cases hrl : errIsRateLimited (attempt idx).2 = true
      · have hrec := ih (idx + 1) (b * 2) hpos2 hshift
        rw [hidx] at hrec
        simp only [retryLoop, hrl, hf, if_true, if_false, ite_true, ite_false]
        exact ⟨hrec.1, hrec.2.1, by simp [hrec.2.2]⟩
      · simp only [Bool.not_eq_true] at hrl
        have hrec := ih (idx + 1) b hpos2 hshift
        rw [hidx] at hrec
        simp only [retryLoop, hrl, hf, h0, if_true, if_false, ite_true, ite_false,
          Option.isSome_none, Bool.false_eq_true]
        exact ⟨hrec.1, hrec.2.1, by simp [hrec.2.2]⟩

/-- C10: in `download_image_with_retry` the number of backoff sleeps equals
the number of rate-limited failed attempts — including a rate-limited
failure on the final permitted attempt, which still sleeps the next doubled
duration before the failure is returned — and the `i`-th sleep (0-indexed)
lasts `2 ^ (i + 1) * timeout`. -/
theorem download_image_with_retry_sleeps (net : Nat → NetResponse) (key T retries : Nat)
    (uat : Option String) (dis : List String) :
    (download_image_with_retry net key T retries uat dis).sleeps =
      (List.range (((download_image_with_retry net key T retries uat dis).attempts.filter
        (fun r => errIsRateLimited r.2)).length)).map (fun i => 2 ^ (i + 1) * T) ∧
    (download_image_with_retry net key T retries uat dis).sleeps.length =
      ((download_image_with_retry net key T retries uat dis).attempts.filter
        (fun r => errIsRateLimited r.2)).length := by
  unfold download_image_with_retry
  rw [retryLoop_sleeps]
  constructor
  · apply List.map_congr_left
    intro i _
    ring
  · simp

/-- C6: with `retries = 3`, three consecutive rate-limited failures followed
by a success produce exactly 4 fetch attempts, the success is returned, and
the sleep durations before attempts 2, 3 and 4 are `2T`, `4T`, `8T`. -/
theorem download_image_with_retry_backoff (net : Nat → NetResponse) (key T : Nat)
    (uat : Option String) (dis : List String) (p e0 e1 e2 : String)
    (h0 : (download_image (net 0) key T uat dis).2 = (none, some e0))
    (hrl0 : is_rate_limit_error e0 = true)
    (h1 : (download_image (net 1) key T uat dis).2 = (none, some e1))
    (hrl1 : is_rate_limit_error e1 = true)
    (h2 : (download_image (net 2) key T uat dis).2 = (none, some e2))
    (hrl2 : is_rate_limit_error e2 = true)
    (h3 : (download_image (net 3) key T uat dis).2 = (some p, none)) :
    (download_image_with_retry net key T 3 uat dis).img_stream = some p ∧
    (download_image_with_retry net key T 3 uat dis).err = none ∧
    (download_image_with_retry net key T 3 uat dis).attempts.length = 4 ∧
    (download_image_with_retry net key T 3 uat dis).sleeps = [2 * T, 4 * T, 8 * T] := by
  unfold download_image_with_retry
  simp [retryLoop, h0, h1, h2, h3, errIsRateLimited, hrl0, hrl1, hrl2]

/-- Witness for C6: a network that answers `HTTP Error 429` three times and
then serves the image. -/
theorem download_image_with_retry_backoff_witness :
    (download_image_with_retry
      (fun i => if i < 3 then NetResponse.bad "HTTP Error 429: Too Many Requests"
        else NetResponse.ok [] "img") 7 10 3 none []).img_stream = some "img" ∧
    (download_image_with_retry
      (fun i => if i < 3 then NetResponse.bad "HTTP Error 429: Too Many Requests"
        else NetResponse.ok [] "img") 7 10 3 none []).sleeps = [2 * 10, 4 * 10, 8 * 10] := by
  have h := download_image_with_retry_backoff
    (fun i => if i < 3 then NetResponse.bad "HTTP Error 429: Too Many Requests"
      else NetResponse.ok [] "img") 7 10 none [] "img"
    "HTTP Error 429: Too Many Requests" "HTTP Error 429: Too Many Requests"
    "HTTP Error 429: Too Many Requests"
    (by decide) (by decide) (by decide) (by decide) (by decide) (by decide) (by decide)
  exact ⟨h.1, h.2.2.2⟩

/-- C3 is false as stated: with `retries = 1` and a first attempt failing
with the non-rate-limit error `"connection refused"`, the loop does not stop
and return that failure — it performs a second fetch attempt (with no sleep)
and returns the second attempt's error. -/
theorem download_image_with_retry_nonRL_counterexample :
    (download_image_with_retry
      (fun i => if i = 0 then NetResponse.bad "connection refused"
        else NetResponse.bad "timed out") 0 1 1 none []).attempts.length = 2 ∧
    (download_image_with_retry
      (fun i => if i = 0 then NetResponse.bad "connection refused"
        else NetResponse.bad "timed out") 0 1 1 none []).err = some "timed out" ∧
    (download_image_with_retry
      (fun i => if i = 0 then NetResponse.bad "connection refused"
        else NetResponse.bad "timed out") 0 1 1 none []).sleeps = [] := by
  exact ⟨rfl, rfl, rfl⟩

/-- C3 (amended): every failed attempt — rate-limited or not — is followed
by a further attempt while the budget lasts (only rate-limited failures
additionally sleep), so when all attempts fail the loop performs exactly
`retries + 1` attempts and the returned failure carries the error of the
last attempt, and the number of sleeps equals the number of rate-limited
attempts. -/
theorem download_image_with_retry_lastError (net : Nat → NetResponse) (key T retries : Nat)
    (uat : Option String) (dis : List String)
    (h : ∀ i, i ≤ retries → (download_image (net i) key T uat dis).2.1 = none) :
    (download_image_with_retry net key T retries uat dis).err =
      (download_image (net retries) key T uat dis).2.2 ∧
    (download_image_with_retry net key T retries uat dis).img_stream = none ∧
    (download_image_with_retry net key T retries uat dis).attempts.length = retries + 1 ∧
    (download_image_with_retry net key T retries uat dis).sleeps.length =
      ((download_image_with_retry net key T retries uat dis).attempts.filter
        (fun r => errIsRateLimited r.2)).length := by
  unfold download_image_with_retry
  have hall := retryLoop_allFail (fun i => (download_image (net i) key T uat dis).2) T key
    (retries + 1) 0 2 (by omega) (fun j hj => by simpa using h j (by omega))
  rw [show 0 + (retries + 1 - 1) = retries by omega] at hall
  refine ⟨hall.1, hall.2.1, hall.2.2, ?_⟩
  rw [retryLoop_sleeps]
  simp

/-- Witness for the amended C3: one non-rate-limit failure, one rate-limited
failure; two attempts, last error returned, one sleep. -/
theorem download_image_with_retry_lastError_witness :
    (download_image_with_retry
      (fun i => if i = 0 then NetResponse.bad "timed out"
        else NetResponse.bad "HTTP Error 429") 0 1 1 none []).err = some "HTTP Error 429" ∧
    (download_image_with_retry
      (fun i => if i = 0 then NetResponse.bad "timed out"
        else NetResponse.bad "HTTP Error 429") 0 1 1 none []).attempts.length = 1 + 1 ∧
    (download_image_with_retry
      (fun i => if i = 0 then NetResponse.bad "timed out"
        else NetResponse.bad "HTTP Error 429") 0 1 1 none []).sleeps.length = 1 := by
  have h := download_image_with_retry_lastError
    (fun i => if i = 0 then NetResponse.bad "timed out"
      else NetResponse.bad "HTTP Error 429") 0 1 1 none []
    (by intro i hi; interval_cases i <;> decide)
  refine ⟨by rw [h.1]; decide, h.2.2.1, by rw [h.2.2.2]; decide⟩

/-! ### Helper lemmas on the processor and the shard driver -/

theorem resize_and_finish_sum (cfg : DLConfig) (str_key : String) (caption : Option String)
    (meta : Meta) (img : String) (sd : List String) :
    (resize_and_finish cfg str_key caption meta img sd).successes +
      (resize_and_finish cfg str_key caption meta img sd).failed_to_download +
      (resize_and_finish cfg str_key caption meta img sd).failed_to_resize =
      (if (resize_and_finish cfg str_key caption meta img sd).sample.isSome then 1 else 0) := by
  unfold resize_and_finish exceptionOut
  rcases hres : cfg.resizer img (cfg.bbox_indice.bind fun i => sd[i]?)
      (cfg.crop_indice.bind fun i => sd[i]?) with e | r
  · simp [hres]
  · rcases hre : r.error_message with _ | e <;> simp [hres, hre]

/-- Every call of the processor contributes exactly 1 to the three counters
when it produces a sample, and 0 on the broad-except path. -/
theorem process_downloaded_sum (cfg : DLConfig) (key : Nat) (img err : Option String)
    (sd : List String) :
    (process_downloaded cfg key img err sd).successes +
      (process_downloaded cfg key img err sd).failed_to_download +
      (process_downloaded cfg key img err sd).failed_to_resize =
      (if (process_downloaded cfg key img err sd).sample.isSome then 1 else 0) := by
  unfold process_downloaded
  rcases err with _ | e
  · rcases img with _ | img
    · simp [exceptionOut]
    · rcases hhi : cfg.hash_indice with _ | hi
      · simpa [hhi] using resize_and_finish_sum cfg _ _ _ img sd
      · rcases hsd : sd[hi]? with _ | stored
        · simp [hhi, hsd, exceptionOut]
        · by_cases hb : (cfg.verifyHashFn img != stored) = true
          · simp [hhi, hsd, hb]
          · simp only [Bool.not_eq_true] at hb
            simpa [hhi, hsd, hb] using resize_and_finish_sum cfg _ _ _ img sd
  · simp

theorem shardLoop_complete (cfg : DLConfig) :
    ∀ rows st, (∀ env ∈ rows,
      (process_downloaded cfg env.key env.img_stream env.err env.sample_data).sample.isSome
        = true) →
      ((shardLoop cfg rows st).successes + (shardLoop cfg rows st).failed_to_download +
        (shardLoop cfg rows st).failed_to_resize =
        st.successes + st.failed_to_download + st.failed_to_resize + rows.length) ∧
      ∃ ws : List Event, (shardLoop cfg rows st).events = st.events ++ ws ∧
        ws.length = rows.length ∧ (∀ e ∈ ws, e.isWrote = true) := by
  intro rows
  induction rows with
  | nil =>
    intro st _
    exact ⟨by simp [shardLoop], [], by simp [shardLoop], rfl, by simp⟩
  | cons env rest ih =>
    intro st h
    have henv := h env (List.mem_cons_self env rest)
    obtain ⟨smp, hsmp⟩ := Option.isSome_iff_exists.mp henv
    have hsum := process_downloaded_sum cfg env.key env.img_stream env.err env.sample_data
    rw [henv, if_pos rfl] at hsum
    obtain ⟨hsums, ws, hev, hlen, hwr⟩ :=
      ih ⟨st.successes +
            (process_downloaded cfg env.key env.img_stream env.err env.sample_data).successes,
          st.failed_to_download +
            (process_downloaded cfg env.key env.img_stream env.err
              env.sample_data).failed_to_download,
          st.failed_to_resize +
            (process_downloaded cfg env.key env.img_stream env.err
              env.sample_data).failed_to_resize,
          st.events ++ [Event.wrote smp], st.aborted⟩
        (fun e he => h e (List.mem_cons_of_mem env he))
    constructor
    · dsimp only at hsums
      simp only [shardLoop, hsmp, List.length_cons]
      omega
    · refine ⟨Event.wrote smp :: ws, ?_, ?_, ?_⟩
      · simp only [shardLoop, hsmp]
        rw [hev]
        simp
      · simp [hlen]
      · intro e he
        rcases List.mem_cons.mp he with rfl | he2
        · rfl
        · exact hwr e he2

theorem shardLoop_events (cfg : DLConfig) :
    ∀ rows st, ∃ ws : List Event, (shardLoop cfg rows st).events = st.events ++ ws ∧
      ∀ e ∈ ws, e.isWrote = true := by
  intro rows
  induction rows with
  | nil =>
    intro st
    exact ⟨[], by simp [shardLoop], by simp⟩
  | cons env rest ih =>
    intro st
    cases hsmp : (process_downloaded cfg env.key env.img_stream env.err
        env.sample_data).sample with
    | none =>
      refine ⟨[], ?_, by simp⟩
      simp [shardLoop, hsmp]
    | some smp =>
      obtain ⟨ws, hev, hwr⟩ :=
        ih ⟨st.successes +
              (process_downloaded cfg env.key env.img_stream env.err env.sample_data).successes,
            st.failed_to_download +
              (process_downloaded cfg env.key env.img_stream env.err
                env.sample_data).failed_to_download,
            st.failed_to_resize +
              (process_downloaded cfg env.key env.img_stream env.err
                env.sample_data).failed_to_resize,
            st.events ++ [Event.wrote smp], st.aborted⟩
      refine ⟨Event.wrote smp :: ws, ?_, ?_⟩
      · simp only [shardLoop, hsmp]
        rw [hev]
        simp
      · intro e he
        rcases List.mem_cons.mp he with rfl | he2
        · rfl
        · exact hwr e he2

/-! ### Concrete configurations used by counterexamples and witnesses -/

/-- A minimal configuration whose external resizer raises
(`Except.error`), exercising the broad-except path of lines 237-240:
one `url` column, no optional columns. -/
def cfgBoom : DLConfig := {
  shard_id := 0
  oom_sample_per_shard := 3
  oom_shard_count := 2
  column_list := ["url"]
  bbox_indice := none
  caption_indice := none
  crop_indice := none
  hash_indice := none
  extract_exif := false
  compute_hash := none
  verifyHashFn := fun s => s
  computeHashFn := fun s => s
  exifFn := fun _ => none
  resizer := fun _ _ _ => Except.error "ValueError: boom" }

/-- The same configuration with a resizer that succeeds. -/
def cfgOk : DLConfig := { cfgBoom with
  resizer := fun img _ _ => Except.ok
    { img := img, width := 10, height := 20, original_width := 30, original_height := 40,
      error_message := none } }

/-- A row whose fetch succeeded with payload `"bytes"`. -/
def envBoom : RowEnv :=
  { key := 0, img_stream := some "bytes", err := none,
    sample_data := ["http://example.com/a.jpg"] }

/-! ### C1: counter invariant of `download_shard` -/

/-- C1 is false as stated: a shard with one row whose resizer raises ends
with `successes + failed_to_download + failed_to_resize = 0` although one
row was materialized (the broad except of lines 237-242 returns all-zero
counter deltas, so the row is counted nowhere). -/
theorem download_shard_counters_counterexample :
    (download_shard cfgBoom [envBoom]).count = 1 ∧
    (download_shard cfgBoom [envBoom]).successes +
      (download_shard cfgBoom [envBoom]).failed_to_download +
      (download_shard cfgBoom [envBoom]).failed_to_resize = 0 :=
  ⟨rfl, rfl⟩

/-- C1 (amended): if every row's processing completes without the
unexpected-exception path (equivalently, every row yields a non-null
sample), then after the processing loop
`successes + failed_to_download + failed_to_resize = total_rows`. -/
theorem download_shard_counters (cfg : DLConfig) (rows : List RowEnv)
    (h : ∀ env ∈ rows,
      (process_downloaded cfg env.key env.img_stream env.err env.sample_data).sample.isSome
        = true) :
    (download_shard cfg rows).successes + (download_shard cfg rows).failed_to_download +
      (download_shard cfg rows).failed_to_resize = (download_shard cfg rows).count := by
  obtain ⟨hsums, -⟩ := shardLoop_complete cfg rows ⟨0, 0, 0, [], false⟩ h
  dsimp only at hsums
  unfold download_shard
  dsimp only
  omega

/-- Witness for the amended C1: a two-row shard — one successful download
and resize, one failed download — sums to its row count. -/
theorem download_shard_counters_witness :
    (download_shard cfgOk
        [⟨0, some "b", none, ["u"]⟩, ⟨1, none, some "timed out", ["u2"]⟩]).successes +
      (download_shard cfgOk
        [⟨0, some "b", none, ["u"]⟩, ⟨1, none, some "timed out", ["u2"]⟩]).failed_to_download +
      (download_shard cfgOk
        [⟨0, some "b", none, ["u"]⟩, ⟨1, none, some "timed out", ["u2"]⟩]).failed_to_resize =
      (download_shard cfgOk
        [⟨0, some "b", none, ["u"]⟩, ⟨1, none, some "timed out", ["u2"]⟩]).count := by
  apply download_shard_counters
  intro env henv
  simp only [List.mem_cons, List.not_mem_nil, or_false] at henv
  rcases henv with rfl | rfl <;> rfl

/-! ### C2: exactly one terminal result per row -/

/-- C2 is false as stated: when the resizer raises an exception after a
successful fetch, the exception is caught (lines 237-240) but NOT converted
into a terminal Rejected result — the returned `sample` is null, so nothing
is handed to the writer for that row. -/
theorem process_downloaded_exception_counterexample :
    (process_downloaded cfgBoom 0 (some "bytes") none
      ["http://example.com/a.jpg"]).sample = none ∧
    (process_downloaded cfgBoom 0 (some "bytes") none
      ["http://example.com/a.jpg"]).error_message = none ∧
    (download_shard cfgBoom [envBoom]).events.filter Event.isWrote = [] :=
  ⟨rfl, rfl, rfl⟩

/-- C2 (amended): the processor always returns exactly one result tuple and
never propagates an exception out to the scheduler; every sample it does
produce carries a non-null status; but on the unexpected-exception path the
whole result collapses to `exceptionOut` — a null sample with null error
and zero counters — instead of a terminal Rejected record. -/
theorem process_downloaded_terminal (cfg : DLConfig) (key : Nat)
    (img err : Option String) (sd : List String) :
    (∀ smp, (process_downloaded cfg key img err sd).sample = some smp →
      smp.2.2.2.status.isSome = true) ∧
    ((process_downloaded cfg key img err sd).sample = none →
      process_downloaded cfg key img err sd = exceptionOut) := by
  have hfin : ∀ str_key caption meta img2,
      (∀ smp, (resize_and_finish cfg str_key caption meta img2 sd).sample = some smp →
        smp.2.2.2.status.isSome = true) ∧
      ((resize_and_finish cfg str_key caption meta img2 sd).sample = none →
        resize_and_finish cfg str_key caption meta img2 sd = exceptionOut) := by
    intro str_key caption meta img2
    unfold resize_and_finish
    rcases hres : cfg.resizer img2 (cfg.bbox_indice.bind fun i => sd[i]?)
        (cfg.crop_indice.bind fun i => sd[i]?) with e | r
    · simp [hres, exceptionOut]
    · rcases hre : r.error_message with _ | e <;>
      · constructor
        · intro smp hsmp
          simp only [hres, hre, Option.some.injEq] at hsmp
          subst hsmp
          rfl
        · intro hnone
          simp [hres, hre] at hnone
  unfold process_downloaded
  rcases err with _ | e
  · rcases img with _ | img
    · simp [exceptionOut]
    · rcases hhi : cfg.hash_indice with _ | hi
      · simpa [hhi] using hfin _ _ _ img
      · rcases hsd : sd[hi]? with _ | stored
        · simp [hhi, hsd, exceptionOut]
        · by_cases hb : (cfg.verifyHashFn img != stored) = true
          · constructor
            · intro smp hsmp
              simp only [hhi, hsd, hb, if_true, ite_true] at hsmp
              simp only [Option.some.injEq] at hsmp
              subst hsmp
              rfl
            · intro hnone
              simp [hhi, hsd, hb] at hnone
          · simp only [Bool.not_eq_true] at hb
            simpa [hhi, hsd, hb] using hfin _ _ _ img
  · constructor
    · intro smp hsmp
      simp only [Option.some.injEq] at hsmp
      subst hsmp
      rfl
    · intro hnone
      simp at hnone

/-- Witness for the amended C2: at the raising configuration the result is
exactly `exceptionOut` (null sample, null error message, zero counters). -/
theorem process_downloaded_terminal_witness :
    process_downloaded cfgBoom 0 (some "bytes") none ["http://example.com/a.jpg"]
      = exceptionOut :=
  (process_downloaded_terminal cfgBoom 0 (some "bytes") none
    ["http://example.com/a.jpg"]).2 rfl

/-! ### C5: shard cleanup ordering -/

/-- C5 is false as stated: with one row whose processing raises, the trace
of `download_shard` contains the shard-removal event although the row was
never handed to the writer (no write event precedes it). -/
theorem download_shard_cleanup_counterexample :
    (download_shard cfgBoom [envBoom]).count = 1 ∧
    (download_shard cfgBoom [envBoom]).events =
      [Event.closedWriter, Event.statsWritten, Event.removedShard] :=
  ⟨rfl, rfl⟩

/-- C5 (amended): the shard's backing object is removed only after the
writer's `close()` has returned (the trace always ends with close, stats,
remove, and everything before them is a write); and when no row hits the
unexpected-exception path, every row has been handed to the writer before
the close/removal happen. -/
theorem download_shard_cleanup (cfg : DLConfig) (rows : List RowEnv) :
    (download_shard cfg rows).events =
      (shardLoop cfg rows ⟨0, 0, 0, [], false⟩).events ++
        [Event.closedWriter, Event.statsWritten, Event.removedShard] ∧
    (∀ e ∈ (shardLoop cfg rows ⟨0, 0, 0, [], false⟩).events, e.isWrote = true) ∧
    ((∀ env ∈ rows,
        (process_downloaded cfg env.key env.img_stream env.err env.sample_data).sample.isSome
          = true) →
      (shardLoop cfg rows ⟨0, 0, 0, [], false⟩).events.length = rows.length) := by
  refine ⟨rfl, ?_, ?_⟩
  · obtain ⟨ws, hev, hwr⟩ := shardLoop_events cfg rows ⟨0, 0, 0, [], false⟩
    intro e he
    apply hwr
    rw [hev, List.nil_append] at he
    exact he
  · intro h
    obtain ⟨-, ws, hev, hlen, -⟩ := shardLoop_complete cfg rows ⟨0, 0, 0, [], false⟩ h
    rw [hev, List.nil_append, hlen]

/-- Witness for the amended C5: a one-row shard with no exception writes its
row, and the trace is that write followed by close, stats, removal. -/
theorem download_shard_cleanup_witness :
    (download_shard cfgOk [envBoom]).events =
      (shardLoop cfgOk [envBoom] ⟨0, 0, 0, [], false⟩).events ++
        [Event.closedWriter, Event.statsWritten, Event.removedShard] ∧
    (shardLoop cfgOk [envBoom] ⟨0, 0, 0, [], false⟩).events.length = 1 := by
  have h := download_shard_cleanup cfgOk [envBoom]
  refine ⟨h.1, ?_⟩
  have := h.2.2 (by
    intro env henv
    simp only [List.mem_cons, List.not_mem_nil, or_false] at henv
    subst henv
    rfl)
  simpa using this

/-! ### C7: hash verification -/

/-- C7: a row with a configured hash-verification column whose stored digest
differs from the digest recomputed over the raw fetched bytes is rejected
with status `failed_to_download`, error message exactly `"hash mismatch"`,
a null payload — and the resizer is never invoked for that row (the result
is independent of the configured resizer). -/
theorem hash_mismatch_rejects (cfg : DLConfig) (key : Nat) (img : String)
    (sd : List String) (hi : Nat) (stored : String)
    (hhi : cfg.hash_indice = some hi)
    (hsd : sd[hi]? = some stored)
    (hne : cfg.verifyHashFn img ≠ stored) :
    (process_downloaded cfg key (some img) none sd).error_message = some "hash mismatch" ∧
    (process_downloaded cfg key (some img) none sd).successes = 0 ∧
    (process_downloaded cfg key (some img) none sd).failed_to_download = 1 ∧
    (process_downloaded cfg key (some img) none sd).failed_to_resize = 0 ∧
    (∃ caption meta, (process_downloaded cfg key (some img) none sd).sample =
        some (none,
          compute_key key cfg.shard_id cfg.oom_sample_per_shard cfg.oom_shard_count,
          caption, meta) ∧
      meta.status = some "failed_to_download" ∧
      meta.error_message = some "hash mismatch") ∧
    (∀ r2, process_downloaded { cfg with resizer := r2 } key (some img) none sd =
      process_downloaded cfg key (some img) none sd) := by
  have hb : (cfg.verifyHashFn img != stored) = true := by
    simp [bne_iff_ne, hne]
  refine ⟨?_, ?_, ?_, ?_, ?_, ?_⟩
  · simp [process_downloaded, hhi, hsd, hb]
  · simp [process_downloaded, hhi, hsd, hb]
  · simp [process_downloaded, hhi, hsd, hb]
  · simp [process_downloaded, hhi, hsd, hb]
  · refine ⟨cfg.caption_indice.bind (fun i => sd[i]?),
      { origFields := origFields cfg.column_list sd cfg.hash_indice
        key := compute_key key cfg.shard_id cfg.oom_sample_per_shard cfg.oom_shard_count
        status := some "failed_to_download"
        error_message := some "hash mismatch"
        width := none
        height := none
        original_width := none
        original_height := none
        exif := if cfg.extract_exif then some none else none
        contentHash := if cfg.compute_hash.isSome then some none else none }, ?_, rfl, rfl⟩
    simp [process_downloaded, hhi, hsd, hb]
  · intro r2
    unfold process_downloaded
    dsimp only
    simp only [hhi, hsd, hb, if_true, ite_true]

/-- Witness configuration for C7: a `url` and an `md5` column, the digest
function being the identity, so stored `"deadbeef"` mismatches payload
`"bytes"`. -/
def cfgHash : DLConfig := { cfgOk with
  column_list := ["url", "md5"]
  hash_indice := some 1 }

/-- Witness for C7: the mismatching row is rejected with `"hash mismatch"`
and the result does not change when the resizer is replaced by one that
would raise if invoked. -/
theorem hash_mismatch_rejects_witness :
    (process_downloaded cfgHash 0 (some "bytes") none
      ["http://u", "deadbeef"]).error_message = some "hash mismatch" ∧
    (process_downloaded cfgHash 0 (some "bytes") none
      ["http://u", "deadbeef"]).failed_to_download = 1 ∧
    process_downloaded { cfgHash with resizer := fun _ _ _ => Except.error "never called" } 0
        (some "bytes") none ["http://u", "deadbeef"] =
      process_downloaded cfgHash 0 (some "bytes") none ["http://u", "deadbeef"] := by
  have h := hash_mismatch_rejects cfgHash 0 "bytes" ["http://u", "deadbeef"] 1 "deadbeef"
    rfl rfl (by decide)
  exact ⟨h.1, h.2.2.1, h.2.2.2.2.2 _⟩

/-! ### C8: the usage-policy header contract -/

/-- C8: `is_disallowed` implements the usage-policy header contract — each
header value is split on the first colon into an optional scoping token and
a comma-separated directive list, directives are trimmed and lowercased
before membership testing, and a header blocks iff some directive is in the
disallowed set and the scoping token is absent or matches the caller's own
token case-insensitively (`spec_is_disallowed`, written from the spec's
words); the hypothesis that the caller's token is already lowercase is
guaranteed by `Downloader.__init__`, which stores
`user_agent_token.strip().lower()`.  With an empty disallowed set no header
blocks the fetch. -/
theorem is_disallowed_correct (headerValues : List String)
    (user_agent_token : Option String) (disallowed : List String)
    (hlower : ∀ u, user_agent_token = some u → pyLower u = u) :
    is_disallowed headerValues user_agent_token disallowed =
      spec_is_disallowed headerValues user_agent_token disallowed ∧
    is_disallowed headerValues user_agent_token [] = false := by
  constructor
  · unfold is_disallowed spec_is_disallowed
    induction headerValues with
    | nil => rfl
    | cons v rest ih =>
      simp only [List.any_cons, ih]
      congr 1
      by_cases hlen : (pySplitFirst ':' v).length = 2
      · rcases huat : user_agent_token with _ | u
        · rw [Bool.eq_iff_iff]
          simp [hlen]
        · have hlu : pyLower u = u := hlower u huat
          rw [Bool.eq_iff_iff]
          simp [hlen, hlu]
      · rw [Bool.eq_iff_iff]
        simp [hlen]
  · unfold is_disallowed
    simp

/-- Witness for C8, covering the spec's three scenarios: an unscoped
`noindex` header with `noindex` disallowed blocks; the same header with no
disallowed set configured does not; a header scoped to a different agent
token does not. -/
theorem is_disallowed_correct_witness :
    is_disallowed ["noindex"] none ["noindex"] =
      spec_is_disallowed ["noindex"] none ["noindex"] ∧
    is_disallowed ["otherbot:noindex"] (some "mybot") ["noindex"] =
      spec_is_disallowed ["otherbot:noindex"] (some "mybot") ["noindex"] ∧
    is_disallowed ["noindex"] none ["noindex"] = true ∧
    is_disallowed ["noindex"] none [] = false ∧
    is_disallowed ["otherbot:noindex"] (some "mybot") ["noindex"] = false := by
  have h1 := is_disallowed_correct ["noindex"] none ["noindex"]
    (by intro u hu; cases hu)
  have h2 := is_disallowed_correct ["otherbot:noindex"] (some "mybot") ["noindex"]
    (by intro u hu; simp only [Option.some.injEq] at hu; subst hu; decide)
  refine ⟨h1.1, h2.1, ?_, h1.2, ?_⟩
  · rw [h1.1]; decide
  · rw [h2.1]; decide

/-! ### C4: the disallowed-directive failure path of `download_image` -/

/-- C4 names a code bug: on a response whose `X-Robots-Tag` headers match
the disallowed set, line 56 — a leftover `import remote_pdb;
remote_pdb.set_trace()` — executes before the policy-violation return of
line 57; in the repository's environment the import raises, the broad
`except` converts it to text, and the failure returned carries that text,
not the message `"Use of image disallowed by X-Robots-Tag directive"`.
The never-raises half of the claim holds: a network failure is likewise
returned as a textual `Failure`, never raised. -/
theorem download_image_disallowed_bug :
    download_image (NetResponse.ok ["noindex"] "imgbytes") 0 10 none ["noindex"]
      = (0, none, some remotePdbError) ∧
    remotePdbError ≠ disallowedMessage ∧
    download_image (NetResponse.bad "timed out") 0 10 none ["noindex"]
      = (0, none, some "timed out") :=
  ⟨rfl, by decide, rfl⟩

end Img2dataset
